import Mathlib

/-!
# MiniFS — a shallow embedding of the in-memory filesystem store

This file embeds the TypeScript sources of the MiniFS store (the node model,
path normalization, and the public operations `createDirectory`, `readEntry`,
`readDirectory`, `readFile`, `_writeFile` / `writeFile` /
`writeFileWithCallback`, `remove`, and the pre-order `walk`) as executable
Lean definitions, and proves properties of the embedded operations.

Embedding conventions:
* A JavaScript object used as a directory's `content` mapping is embedded as
  an association list `List (String × Entry α δ)`; `k in obj` is `memC`,
  `obj[k]` is `getC`, `obj[k] = v` is `setC` (replace-in-place or append,
  as JS property assignment behaves), `delete obj[k]` is `eraseC`, and
  `Object.keys(obj)` is `keysC` (insertion order).
* The store mutates `this.files` in place; the embedding passes the tree
  explicitly, so every method returns its result together with the tree
  after the call.
* `preferErrors` throws vs. sentinel returns are embedded as
  `Except String` values: `.error msg` is a thrown error, `.ok v` a normal
  return (`null` sentinels become dedicated `nullv` constructors).
* `TFileContent` is the type parameter `α`; the auxiliary `data` slot is
  `Option δ` (`undefined` is `none`).
-/

namespace Minifs

/-- The `NodeType` enum from the source. -/
inductive NodeType where
  | node
  | file
  | directory
deriving DecidableEq, Repr

instance : BEq NodeType := instBEqOfDecidableEq

/-- The `File` class: `name`, optional `content`, optional auxiliary `data`. -/
structure File (α δ : Type) where
  name : String
  content : Option α
  data : Option δ
deriving Repr

/-- A file system entry: either a `File` or a `Directory` (name, content
mapping embedded as an association list, auxiliary data). -/
inductive Entry (α δ : Type) where
  | file (f : File α δ)
  | dir (name : String) (content : List (String × Entry α δ)) (data : Option δ)

/-- A directory's content mapping (a JS object keyed by child name). -/
abbrev DirContent (α δ : Type) := List (String × Entry α δ)

/-- Embeds `Node.getType` / the overrides in `File` and `Directory`. -/
def Entry.getType {α δ : Type} : Entry α δ → NodeType
  | .file _ => .file
  | .dir _ _ _ => .directory

/-- Embeds `Node.isFile`: `this.getType() === NodeType.File`. -/
def Entry.isFile {α δ : Type} (e : Entry α δ) : Bool :=
  e.getType == NodeType.file

/-- Embeds `Node.isDirectory`: `this.getType() === NodeType.Directory`. -/
def Entry.isDirectory {α δ : Type} (e : Entry α δ) : Bool :=
  e.getType == NodeType.directory

/-- Embeds `pathSegment in dir.content` (JS `in` on the content object). -/
def memC {α δ : Type} (c : DirContent α δ) (k : String) : Bool :=
  c.any (fun p => p.1 == k)

/-- Embeds `dir.content[pathSegment]` (JS property read; `none` is `undefined`). -/
def getC {α δ : Type} : DirContent α δ → String → Option (Entry α δ)
  | [], _ => none
  | (k', v) :: rest, k => if k' == k then some v else getC rest k

/-- Embeds `dir.content[pathSegment] = v` (JS property write: overwrite in place
if the key exists, append otherwise). -/
def setC {α δ : Type} : DirContent α δ → String → Entry α δ → DirContent α δ
  | [], k, v => [(k, v)]
  | (k', v') :: rest, k, v =>
    if k' == k then (k, v) :: rest else (k', v') :: setC rest k v

/-- Embeds `delete dir.content[pathSegment]` (JS property delete). -/
def eraseC {α δ : Type} : DirContent α δ → String → DirContent α δ
  | [], _ => []
  | (k', v') :: rest, k =>
    if k' == k then rest else (k', v') :: eraseC rest k

/-- Embeds `Object.keys(dir.content)` (insertion order). -/
def keysC {α δ : Type} (c : DirContent α δ) : List String :=
  c.map (fun p => p.1)

/-- A `Path`: either a raw string or a pre-split segment array. -/
inductive Path where
  | str (s : String)
  | segs (l : List String)

/-- The `rootPath` constant (`[]`). -/
def rootPath : Path := .segs []

/-- JS `String.prototype.split` with the one-character separator `/`,
written as a structural recursion over the characters (so that it
evaluates definitionally): the current segment `acc` is emitted at every
`/` and at the end of the string.  As in JS, `""` splits to `[""]`,
`"a//b"` to `["a", "", "b"]`, and `"/a"` to `["", "a"]` — no empty-segment
filtering, no special casing. -/
def splitSlashAux (acc : List Char) : List Char → List String
  | [] => [String.mk acc.reverse]
  | ch :: rest =>
    if ch = '/' then String.mk acc.reverse :: splitSlashAux [] rest
    else splitSlashAux (ch :: acc) rest

/-- Embeds `path.split("/")`. -/
def splitSlash (s : String) : List String :=
  splitSlashAux [] s.toList

/-- Embeds `pathAsSegments`: a string path is literally split on `/`; a segment
array passes through unchanged. -/
def pathAsSegments : Path → List String
  | .str s => splitSlash s
  | .segs l => l

/-- The store: the root directory's content mapping (`this.files` is
`new Directory("")`, whose name and data never change) plus the
constructor-time `preferErrors` flag. -/
structure MiniFS (α δ : Type) where
  files : DirContent α δ
  preferErrors : Bool

/-- The root directory entry `this.files` (name `""`, data `undefined`). -/
def MiniFS.rootEntry {α δ : Type} (fs : MiniFS α δ) : Entry α δ :=
  .dir "" fs.files none

/-- Embeds `new MiniFS(options)`: empty root, `preferErrors` defaulting to false. -/
def MiniFS.fresh {α δ : Type} (pe : Bool) : MiniFS α δ :=
  ⟨[], pe⟩

/-- Embeds `if (this.preferErrors) throw new Error(msg); return false;` -/
def jsFail (pe : Bool) (msg : String) : Except String Bool :=
  if pe then .error msg else .ok false

/-- Error message of `createDirectory` on a missing segment (non-recursive). -/
def msgCreateDirMissing : String := "[MiniFS.createDirectory] directory does not exist."

/-- Error message of `createDirectory` on a segment that is a file. -/
def msgCreateDirIsFile : String := "[MiniFS.createDirectory] path segment is a file."

/-- Error message of `_writeFile` on a missing segment (non-recursive). -/
def msgWriteMissing : String := "[MiniFS._writeFile] directory does not exist."

/-- Error message of `_writeFile` on a segment that is a file. -/
def msgWriteIsFile : String := "[MiniFS._writeFile] path segment is a file."

/-- Error message of the dead `is a directory` branch of `_writeFile`. -/
def msgWriteIsDir : String := "[MiniFS._writeFile] path is a directory."

/-- Error message of `remove` on a missing segment. -/
def msgRemoveMissing : String := "[MiniFS.removeDirectory] directory does not exist."

/-- Error message of `remove` on a segment that is a file. -/
def msgRemoveIsFile : String := "[MiniFS.removeDirectory] path segment is a file."

/-- Embeds `MiniFS.readEntry`'s loop: walk the segments from the current entry;
a `File` met with segments still to consume fails (`is a file`), a missing
key fails (`does not exist`); otherwise descend.  `.ok none` is the `null`
return, `.error` the `preferErrors` throw.  Never mutates. -/
def readEntryE {α δ : Type} (pe : Bool) : Entry α δ → List String → Except String (Option (Entry α δ))
  | e, [] => .ok (some e)
  | .file _, _ :: _ =>
    if pe then .error "[MiniFS.readEntry] Intermediate path segment is a file."
    else .ok none
  | .dir _ c _, s :: rest =>
    match getC c s with
    | none =>
      if pe then .error "[MiniFS.readEntry] Intermediate path segment does not exist."
      else .ok none
    | some e2 => readEntryE pe e2 rest

/-- Embeds `MiniFS.readEntry(path)`: resolve from the root `this.files`; the store
is returned unchanged (the method performs no assignment). -/
def MiniFS.readEntry {α δ : Type} (fs : MiniFS α δ) (p : Path) :
    Except String (Option (Entry α δ)) × MiniFS α δ :=
  (readEntryE fs.preferErrors fs.rootEntry (pathAsSegments p), fs)

/-- Result of `readDirectory`: a name listing, the entry itself
(`returnEntry`), or the `null` sentinel. -/
inductive ReadDirRes (α δ : Type) where
  | names (l : List String)
  | entry (e : Entry α δ)
  | nullv

/-- Embeds `MiniFS.readDirectory(path, { returnEntry })`: resolve, then fail on a
`File` (`is a file`), return keys or the entry on a `Directory`, and fail
with `does not exist` on `null`.  Never mutates (no assignment occurs). -/
def MiniFS.readDirectory {α δ : Type} (fs : MiniFS α δ) (p : Path) (returnEntry : Bool) :
    Except String (ReadDirRes α δ) × MiniFS α δ :=
  ( match readEntryE fs.preferErrors fs.rootEntry (pathAsSegments p) with
    | .error m => .error m
    | .ok (some (.file _)) =>
      if fs.preferErrors then .error "[MiniFS.readDirectory] path is a file."
      else .ok .nullv
    | .ok (some (.dir nm c dt)) =>
      if returnEntry then .ok (.entry (.dir nm c dt)) else .ok (.names (keysC c))
    | .ok none =>
      if fs.preferErrors then .error "[MiniFS.readDirectory] path does not exist."
      else .ok .nullv
  , fs)

/-- Result of `readFile`: the content, the `File` entry (`returnEntry`), or
the `null` sentinel. -/
inductive ReadFileRes (α δ : Type) where
  | content (x : α)
  | entry (f : File α δ)
  | nullv

/-- Embeds `MiniFS.readFile(path, { returnEntry })`: resolve, then on a `File`
fail if its content is unset (`has no content`) else return the content or
the entry; fail `does not exist` on `null` and `is a directory` on a
`Directory`.  Never mutates (no assignment occurs). -/
def MiniFS.readFile {α δ : Type} (fs : MiniFS α δ) (p : Path) (returnEntry : Bool) :
    Except String (ReadFileRes α δ) × MiniFS α δ :=
  ( match readEntryE fs.preferErrors fs.rootEntry (pathAsSegments p) with
    | .error m => .error m
    | .ok (some (.file f)) =>
      match f.content with
      | none =>
        if fs.preferErrors then .error "[MiniFS.readFile] path has no content."
        else .ok .nullv
      | some x =>
        if returnEntry then .ok (.entry f) else .ok (.content x)
    | .ok none =>
      if fs.preferErrors then .error "[MiniFS.readFile] path does not exist."
      else .ok .nullv
    | .ok (some (.dir _ _ _)) =>
      if fs.preferErrors then .error "[MiniFS.readFile] path is a directory."
      else .ok .nullv
  , fs)

/-- Embeds `MiniFS.createDirectory`'s loop over one directory's content `c` and the
remaining segments.  A missing segment is created as `new Directory(seg)`
when `recursive`, else the call fails; then (fallthrough in the source) the
entry at the segment is looked up: a `File` fails (`is a file`), a
`Directory` becomes the new current directory.  The `none` arm of the
fallthrough lookup is unreachable: the segment is always present there. -/
def createDirGo {α δ : Type} (pe rec : Bool) : DirContent α δ → List String → Except String Bool × DirContent α δ
  | c, [] => (.ok true, c)
  | c, s :: rest =>
    let step : DirContent α δ → Except String Bool × DirContent α δ := fun c2 =>
      match getC c2 s with
      | some (.file _) => (jsFail pe msgCreateDirIsFile, c2)
      | some (.dir nm dc dt) =>
        let r := createDirGo pe rec dc rest
        (r.1, setC c2 s (.dir nm r.2 dt))
      | none => (.ok false, c2)
    if memC c s = false then
      if rec then step (setC c s (.dir s [] none))
      else (jsFail pe msgCreateDirMissing, c)
    else step c

/-- Embeds `MiniFS.createDirectory(path, { recursive })` (default `recursive = true`). -/
def MiniFS.createDirectory {α δ : Type} (fs : MiniFS α δ) (p : Path) (recursive : Bool) :
    Except String Bool × MiniFS α δ :=
  let r := createDirGo fs.preferErrors recursive fs.files (pathAsSegments p)
  (r.1, ⟨r.2, fs.preferErrors⟩)

/-- Embeds `MiniFS._writeFile`'s loop over one directory's content `c` and the
remaining segments, with the caller-supplied write callback `cb`.
Mirrors the source structure: the `!(pathSegment in dir.content)` block
(which on the last segment re-tests membership — a test that can never
succeed there, so the branch overwriting an existing file or failing with
`is a directory` is dead code), then the fallthrough lookup whose `File`
arm fails (`is a file`) and whose `Directory` arm descends.  The `none`
arms inside the two membership-guarded lookups are unreachable. -/
def writeGo {α δ : Type} (pe rec : Bool) (cb : File α δ → File α δ) :
    DirContent α δ → List String → Except String Bool × DirContent α δ
  | c, [] => (.ok true, c)
  | c, s :: rest =>
    let step : DirContent α δ → Except String Bool × DirContent α δ := fun c2 =>
      match getC c2 s with
      | some (.file _) => (jsFail pe msgWriteIsFile, c2)
      | some (.dir nm dc dt) =>
        let r := writeGo pe rec cb dc rest
        (r.1, setC c2 s (.dir nm r.2 dt))
      | none => (.ok false, c2)
    if memC c s = false then
      if rec then
        if rest.isEmpty then
          if memC c s then
            match getC c s with
            | some (.file f) => (.ok true, setC c s (.file (cb f)))
            | some (.dir _ _ _) => (jsFail pe msgWriteIsDir, c)
            | none => (.ok true, c)
          else
            (.ok true, setC c s (.file (cb ⟨s, none, none⟩)))
        else
          step (setC c s (.dir s [] none))
      else (jsFail pe msgWriteMissing, c)
    else step c

/-- Embeds `MiniFS.writeFile(path, content, { recursive })`: `_writeFile` with the
callback `(file) => { file.content = content; }`. -/
def MiniFS.writeFile {α δ : Type} (fs : MiniFS α δ) (p : Path) (content : Option α) (recursive : Bool) :
    Except String Bool × MiniFS α δ :=
  let r := writeGo fs.preferErrors recursive (fun f => { f with content := content }) fs.files (pathAsSegments p)
  (r.1, ⟨r.2, fs.preferErrors⟩)

/-- Embeds `MiniFS.writeFileWithCallback(path, callback, { recursive })`. -/
def MiniFS.writeFileWithCallback {α δ : Type} (fs : MiniFS α δ) (p : Path) (cb : File α δ → File α δ) (recursive : Bool) :
    Except String Bool × MiniFS α δ :=
  let r := writeGo fs.preferErrors recursive cb fs.files (pathAsSegments p)
  (r.1, ⟨r.2, fs.preferErrors⟩)

/-- Embeds `MiniFS.remove`'s loop: a missing segment fails (`does not exist`), an
entry that is a `File` fails (`is a file`) — note this test precedes the
last-segment check in the source — and on the last segment the (directory)
entry is deleted from its parent's mapping. -/
def removeGo {α δ : Type} (pe : Bool) : DirContent α δ → List String → Except String Bool × DirContent α δ
  | c, [] => (.ok true, c)
  | c, s :: rest =>
    match getC c s with
    | none => (jsFail pe msgRemoveMissing, c)
    | some (.file _) => (jsFail pe msgRemoveIsFile, c)
    | some (.dir nm dc dt) =>
      if rest.isEmpty then (.ok true, eraseC c s)
      else
        let r := removeGo pe dc rest
        (r.1, setC c s (.dir nm r.2 dt))

/-- Embeds `MiniFS.remove(path)`. -/
def MiniFS.remove {α δ : Type} (fs : MiniFS α δ) (p : Path) :
    Except String Bool × MiniFS α δ :=
  let r := removeGo fs.preferErrors fs.files (pathAsSegments p)
  (r.1, ⟨r.2, fs.preferErrors⟩)

/-- Embeds `MiniFS.walk`: lazy pre-order traversal, embedded as the list of
(path segments, entry) pairs it yields.  Reads only; never mutates. -/
def walkC {α δ : Type} : DirContent α δ → List String → List (List String × Entry α δ)
  | [], _ => []
  | (nm, e) :: rest, path =>
    (path ++ [nm], e) ::
      ((match e with
        | .dir _ dc _ => walkC dc (path ++ [nm])
        | .file _ => []) ++ walkC rest path)

/-! ## Statement-level definitions and concrete example stores -/

/-- Statement-level predicate: does a resolution result name an existing
`Directory` (i.e. did every non-final segment pass through Directories and
the final segment resolve to a Directory)? -/
def resolvesToDir {α δ : Type} (r : Except String (Option (Entry α δ))) : Bool :=
  match r with
  | .ok (some (.dir _ _ _)) => true
  | _ => false

/-- Statement-level: the content mapping with the entry at the given path
detached from its parent's content mapping, as §4.7 of the spec describes
removal; everything else is untouched. -/
def detachC {α δ : Type} (c : DirContent α δ) : List String → DirContent α δ
  | [] => c
  | [s] => eraseC c s
  | s :: rest =>
    match getC c s with
    | some (.dir nm dc dt) => setC c s (.dir nm (detachC dc rest) dt)
    | _ => c

/-- One public call to the store, for quantifying over call sequences. -/
inductive Op (α δ : Type) where
  | createDirectory (p : Path) (recursive : Bool)
  | readDirectory (p : Path) (returnEntry : Bool)
  | readFile (p : Path) (returnEntry : Bool)
  | writeFile (p : Path) (content : Option α) (recursive : Bool)
  | writeFileWithCallback (p : Path) (cb : File α δ → File α δ) (recursive : Bool)
  | remove (p : Path)
  | walk

/-- Apply one public operation and keep the store state it leaves behind
(the `walk` enumeration only reads the tree: it performs no assignment). -/
def applyOp {α δ : Type} (fs : MiniFS α δ) : Op α δ → MiniFS α δ
  | .createDirectory p r => (fs.createDirectory p r).2
  | .readDirectory p re => (fs.readDirectory p re).2
  | .readFile p re => (fs.readFile p re).2
  | .writeFile p x r => (fs.writeFile p x r).2
  | .writeFileWithCallback p cb r => (fs.writeFileWithCallback p cb r).2
  | .remove p => (fs.remove p).2
  | .walk => fs

/-- Run a sequence of public operations from a given store state. -/
def runOps {α δ : Type} (fs : MiniFS α δ) (ops : List (Op α δ)) : MiniFS α δ :=
  ops.foldl applyOp fs

/-- A store (sentinel mode) whose root maps `a` to a File with content 1. -/
def fileAStore : MiniFS Nat Unit :=
  ⟨[("a", .file ⟨"a", some 1, none⟩)], false⟩

/-- The store `fileAStore` in prefer-errors mode. -/
def fileAStoreE : MiniFS Nat Unit :=
  ⟨[("a", .file ⟨"a", some 1, none⟩)], true⟩

/-- A store (sentinel mode) whose root maps `d` to an empty Directory. -/
def dirDStore : MiniFS Nat Unit :=
  ⟨[("d", .dir "d" [] none)], false⟩

/-- The store `dirDStore` in prefer-errors mode. -/
def dirDStoreE : MiniFS Nat Unit :=
  ⟨[("d", .dir "d" [] none)], true⟩

/-- A store whose root maps `d` to a Directory holding one file. -/
def dirWithChildStore : MiniFS Nat Unit :=
  ⟨[("d", .dir "d" [("x", .file ⟨"x", some 1, none⟩)] none)], false⟩

/-! ## Helper lemmas about the content-mapping primitives -/

theorem memC_eq_isSome {α δ : Type} (c : DirContent α δ) (k : String) :
    memC c k = (getC c k).isSome := by
  induction c with
  | nil => rfl
  | cons p rest ih =>
    obtain ⟨k', v⟩ := p
    by_cases h : k' = k
    · simp [memC, getC, h]
    · have hb : (k' == k) = false := beq_eq_false_iff_ne.mpr h
      simp only [memC, List.any_cons, hb, Bool.false_or, getC, if_neg, Bool.false_eq_true,
        not_false_eq_true]
      simpa [memC] using ih

theorem getC_setC_self {α δ : Type} (c : DirContent α δ) (k : String) (v : Entry α δ) :
    getC (setC c k v) k = some v := by
  induction c with
  | nil => simp [setC, getC]
  | cons p rest ih =>
    obtain ⟨k', v'⟩ := p
    by_cases h : k' = k
    · simp [setC, getC, h]
    · simp [setC, getC, h, ih]

theorem setC_getC_self {α δ : Type} (c : DirContent α δ) (k : String) (v : Entry α δ)
    (h : getC c k = some v) : setC c k v = c := by
  induction c with
  | nil => simp [getC] at h
  | cons p rest ih =>
    obtain ⟨k', v'⟩ := p
    by_cases hk : k' = k
    · simp [getC, hk] at h
      simp [setC, hk, h]
    · simp [getC, hk] at h
      simp [setC, hk, ih h]

theorem jsFail_ne_ok_true (pe : Bool) (m : String) : jsFail pe m ≠ .ok true := by
  cases pe <;> simp [jsFail]

/-- Lemma: `readEntry`'s walk only looks at a directory's content mapping: its
name and data slots are irrelevant once there is a segment to consume. -/
theorem readEntryE_dir_irrel {α δ : Type} (pe : Bool) (nm nm' : String)
    (c : DirContent α δ) (dt dt' : Option δ) (s : String) (rest : List String) :
    readEntryE pe (Entry.dir nm c dt) (s :: rest)
      = readEntryE pe (Entry.dir nm' c dt') (s :: rest) := by
  simp [readEntryE]

/-- Step equation of `readEntry`'s walk when the segment is present. -/
theorem readEntryE_cons_some {α δ : Type} (pe : Bool) (nm : String) (c : DirContent α δ)
    (dt : Option δ) (s : String) (rest : List String) (e2 : Entry α δ)
    (hg : getC c s = some e2) :
    readEntryE pe (Entry.dir nm c dt) (s :: rest) = readEntryE pe e2 rest := by
  simp only [readEntryE, hg]

/-- Step equation of `readEntry`'s walk when the segment is missing. -/
theorem readEntryE_cons_none {α δ : Type} (pe : Bool) (nm : String) (c : DirContent α δ)
    (dt : Option δ) (s : String) (rest : List String)
    (hg : getC c s = none) :
    readEntryE pe (Entry.dir nm c dt) (s :: rest)
      = if pe then .error "[MiniFS.readEntry] Intermediate path segment does not exist."
        else .ok none := by
  simp only [readEntryE, hg]

/-- Lemma: `readEntry`'s walk starting below a `File` with segments left fails. -/
theorem readEntryE_file_cons {α δ : Type} (pe : Bool) (f : File α δ)
    (s : String) (rest : List String) :
    readEntryE pe (Entry.file f) (s :: rest)
      = if pe then .error "[MiniFS.readEntry] Intermediate path segment is a file."
        else .ok none := by
  simp only [readEntryE]

/-- Step equation of `remove`'s loop: descending through a directory at a
non-final segment recurses into its content and writes the result back. -/
theorem removeGo_cons_dir {α δ : Type} (pe : Bool) (c : DirContent α δ) (s r : String)
    (rs : List String) (nm2 : String) (dc2 : DirContent α δ) (dt2 : Option δ)
    (hg : getC c s = some (Entry.dir nm2 dc2 dt2)) :
    removeGo pe c (s :: r :: rs)
      = ((removeGo pe dc2 (r :: rs)).1,
         setC c s (Entry.dir nm2 (removeGo pe dc2 (r :: rs)).2 dt2)) := by
  simp only [removeGo, hg, List.isEmpty_cons]
  rfl

/-- Step equation of the detached tree at a non-final segment. -/
theorem detachC_cons_cons {α δ : Type} (c : DirContent α δ) (s r : String)
    (rs : List String) (nm2 : String) (dc2 : DirContent α δ) (dt2 : Option δ)
    (hg : getC c s = some (Entry.dir nm2 dc2 dt2)) :
    detachC c (s :: r :: rs) = setC c s (Entry.dir nm2 (detachC dc2 (r :: rs)) dt2) := by
  simp only [detachC, hg]

/-- On a path that resolves (read-only) to an existing Directory, `remove`
succeeds and the resulting tree is the one with that entry detached from
its parent's content mapping. -/
theorem removeGo_dir {α δ : Type} :
    ∀ (P : List String), P ≠ [] →
    ∀ (c : DirContent α δ) (nm : String) (dc : DirContent α δ) (dt : Option δ) (pe : Bool),
    readEntryE false (Entry.dir "" c none) P = .ok (some (.dir nm dc dt)) →
    removeGo pe c P = (.ok true, detachC c P) := by
  intro P
  induction P with
  | nil => intro h; exact absurd rfl h
  | cons s rest ih =>
    intro _ c nm dc dt pe h
    cases hg : getC c s with
    | none => rw [readEntryE_cons_none false "" c none s rest hg] at h; simp at h
    | some e2 =>
      rw [readEntryE_cons_some false "" c none s rest e2 hg] at h
      cases rest with
      | nil =>
        rw [readEntryE] at h
        injection h with h
        injection h with h
        subst h
        simp [removeGo, hg, detachC]
      | cons r rs =>
        cases e2 with
        | file f => rw [readEntryE_file_cons false f r rs] at h; simp at h
        | dir nm2 dc2 dt2 =>
          rw [readEntryE_dir_irrel false nm2 "" dc2 dt2 none r rs] at h
          have hrec := ih (by simp) dc2 nm dc dt pe h
          rw [removeGo_cons_dir pe c s r rs nm2 dc2 dt2 hg, hrec,
            detachC_cons_cons c s r rs nm2 dc2 dt2 hg]

/-- On a path that resolves (read-only) to an existing File, `remove`
fails (`is a file`) and leaves the tree unchanged. -/
theorem removeGo_file {α δ : Type} :
    ∀ (P : List String), P ≠ [] →
    ∀ (c : DirContent α δ) (f : File α δ) (pe : Bool),
    readEntryE false (Entry.dir "" c none) P = .ok (some (.file f)) →
    removeGo pe c P = (jsFail pe msgRemoveIsFile, c) := by
  intro P
  induction P with
  | nil => intro h; exact absurd rfl h
  | cons s rest ih =>
    intro _ c f pe h
    cases hg : getC c s with
    | none => rw [readEntryE_cons_none false "" c none s rest hg] at h; simp at h
    | some e2 =>
      rw [readEntryE_cons_some false "" c none s rest e2 hg] at h
      cases rest with
      | nil =>
        rw [readEntryE] at h
        injection h with h
        injection h with h
        subst h
        simp [removeGo, hg]
      | cons r rs =>
        cases e2 with
        | file f2 => rw [readEntryE_file_cons false f2 r rs] at h; simp at h
        | dir nm2 dc2 dt2 =>
          rw [readEntryE_dir_irrel false nm2 "" dc2 dt2 none r rs] at h
          have hrec := ih (by simp) dc2 f pe h
          rw [removeGo_cons_dir pe c s r rs nm2 dc2 dt2 hg, hrec,
            setC_getC_self c s (.dir nm2 dc2 dt2) hg]

/-- Step equation of `_writeFile`: a missing final segment (recursive mode)
creates a fresh `File` named after the segment and applies the callback. -/
theorem writeGo_missing_last {α δ : Type} (pe : Bool) (cb : File α δ → File α δ)
    (c : DirContent α δ) (s : String) (hg : getC c s = none) :
    writeGo pe true cb c [s] = (.ok true, setC c s (.file (cb ⟨s, none, none⟩))) := by
  have hm : memC c s = false := by rw [memC_eq_isSome, hg]; rfl
  simp [writeGo, hm]

/-- Step equation of `_writeFile`: a missing non-final segment (recursive
mode) creates an intermediate directory and descends into it. -/
theorem writeGo_missing_cons {α δ : Type} (pe : Bool) (cb : File α δ → File α δ)
    (c : DirContent α δ) (s : String) (rest : List String)
    (hg : getC c s = none) (hre : rest.isEmpty = false) :
    writeGo pe true cb c (s :: rest)
      = ((writeGo pe true cb [] rest).1,
         setC (setC c s (.dir s [] none)) s (.dir s (writeGo pe true cb [] rest).2 none)) := by
  have hm : memC c s = false := by rw [memC_eq_isSome, hg]; rfl
  have hgs : getC (setC c s (Entry.dir s [] none)) s = some (.dir s [] none) :=
    getC_setC_self c s _
  simp [writeGo, hm, hre, hgs]

/-- Step equation of `_writeFile`: a segment that exists as a `File` fails
(`is a file`) and leaves the tree unchanged — this is what actually runs on
the final segment of an existing file, the overwrite branch being dead. -/
theorem writeGo_mem_file {α δ : Type} (pe rec : Bool) (cb : File α δ → File α δ)
    (c : DirContent α δ) (s : String) (rest : List String) (f : File α δ)
    (hg : getC c s = some (Entry.file f)) :
    writeGo pe rec cb c (s :: rest) = (jsFail pe msgWriteIsFile, c) := by
  have hm : memC c s = true := by rw [memC_eq_isSome, hg]; rfl
  simp [writeGo, hm, hg]

/-- Step equation of `_writeFile`: a segment that exists as a `Directory`
descends into it and writes the (possibly unchanged) content back. -/
theorem writeGo_mem_dir {α δ : Type} (pe rec : Bool) (cb : File α δ → File α δ)
    (c : DirContent α δ) (s : String) (rest : List String)
    (nm : String) (dc : DirContent α δ) (dt : Option δ)
    (hg : getC c s = some (Entry.dir nm dc dt)) :
    writeGo pe rec cb c (s :: rest)
      = ((writeGo pe rec cb dc rest).1,
         setC c s (Entry.dir nm (writeGo pe rec cb dc rest).2 dt)) := by
  have hm : memC c s = true := by rw [memC_eq_isSome, hg]; rfl
  simp [writeGo, hm, hg]

/-- Core of the write/read round trip: along a non-empty path that does
not already resolve (read-only) to a Directory, a successful
`_writeFile` with the `writeFile` callback leaves a `File` whose content
is the written value exactly where `readEntry` resolves the path. -/
theorem writeGo_roundtrip {α δ : Type} :
    ∀ (P : List String), P ≠ [] →
    ∀ (c : DirContent α δ) (pe : Bool) (x : α),
    resolvesToDir (readEntryE false (Entry.dir "" c none) P) = false →
    (writeGo pe true (fun f => { f with content := some x }) c P).1 = .ok true →
    ∃ nmf, ∀ pe2, readEntryE pe2
        (Entry.dir "" (writeGo pe true (fun f => { f with content := some x }) c P).2 none) P
      = .ok (some (.file ⟨nmf, some x, none⟩)) := by
  intro P
  induction P with
  | nil => intro h; exact absurd rfl h
  | cons s rest ih =>
    intro _ c pe x hdir hok
    cases rest with
    | nil =>
      cases hg : getC c s with
      | none =>
        refine ⟨s, fun pe2 => ?_⟩
        rw [writeGo_missing_last pe _ c s hg]
        dsimp only
        rw [readEntryE_cons_some pe2 "" _ none s [] _ (getC_setC_self c s _), readEntryE]
      | some e2 =>
        cases e2 with
        | file f =>
          rw [writeGo_mem_file pe true _ c s [] f hg] at hok
          exact absurd hok (jsFail_ne_ok_true pe msgWriteIsFile)
        | dir nm dc dt =>
          rw [readEntryE_cons_some false "" c none s [] _ hg, readEntryE] at hdir
          simp [resolvesToDir] at hdir
    | cons r rs =>
      cases hg : getC c s with
      | none =>
        have hdir2 : resolvesToDir
            (readEntryE false (Entry.dir "" ([] : DirContent α δ) none) (r :: rs)) = false := by
          rw [readEntryE_cons_none false "" [] none r rs rfl]
          rfl
        rw [writeGo_missing_cons pe _ c s (r :: rs) hg rfl] at hok ⊢
        dsimp only at hok ⊢
        obtain ⟨nmf, hread⟩ := ih (by simp) [] pe x hdir2 hok
        refine ⟨nmf, fun pe2 => ?_⟩
        rw [readEntryE_cons_some pe2 "" _ none s (r :: rs) _ (getC_setC_self _ s _),
          readEntryE_dir_irrel pe2 s "" _ none none r rs]
        exact hread pe2
      | some e2 =>
        cases e2 with
        | file f =>
          rw [writeGo_mem_file pe true _ c s (r :: rs) f hg] at hok
          exact absurd hok (jsFail_ne_ok_true pe msgWriteIsFile)
        | dir nm dc dt =>
          rw [readEntryE_cons_some false "" c none s (r :: rs) _ hg,
            readEntryE_dir_irrel false nm "" dc dt none r rs] at hdir
          rw [writeGo_mem_dir pe true _ c s (r :: rs) nm dc dt hg] at hok ⊢
          dsimp only at hok ⊢
          obtain ⟨nmf, hread⟩ := ih (by simp) dc pe x hdir hok
          refine ⟨nmf, fun pe2 => ?_⟩
          rw [readEntryE_cons_some pe2 "" _ none s (r :: rs) _ (getC_setC_self c s _),
            readEntryE_dir_irrel pe2 nm "" _ dt none r rs]
          exact hread pe2

/-! ## Claim theorems -/

/-- Claim C6: path normalization is a literal split on `/` with no
empty-segment filtering — `"a//b"` yields `["a", "", "b"]`, `"/a"` yields
`["", "a"]` — and a pre-segmented array input passes through unchanged. -/
theorem C6_literal_split :
    pathAsSegments (.str "a//b") = ["a", "", "b"] ∧
    pathAsSegments (.str "/a") = ["", "a"] ∧
    ∀ l : List String, pathAsSegments (.segs l) = l :=
  ⟨by decide, by decide, fun _ => rfl⟩

/-- Claim C4 (counterexample): on a fresh store, after `writeFile("a/b.txt", 0)`
succeeds, `readDirectory("")` does not return the listing `["a"]`: the
string `""` splits to the single empty segment `[""]` (not the root), which
names no entry, so the call returns the `null` sentinel. -/
theorem C4_counterexample :
    ((MiniFS.fresh false : MiniFS Nat Unit).writeFile (.str "a/b.txt") (some 0) true).1
        = .ok true ∧
    (((MiniFS.fresh false : MiniFS Nat Unit).writeFile (.str "a/b.txt") (some 0) true).2.readDirectory
        (.str "") false).1 = .ok .nullv ∧
    (((MiniFS.fresh false : MiniFS Nat Unit).writeFile (.str "a/b.txt") (some 0) true).2.readDirectory
        (.str "") false).1 ≠ .ok (.names ["a"]) :=
  ⟨rfl, rfl, fun h => ReadDirRes.noConfusion (Except.ok.inj h)⟩

/-- Claim C4 (amended): on a fresh store, after `writeFile("a/b.txt", c)`
succeeds, `readDirectory(rootPath)` (the empty segment array) lists
`["a"]` and `readDirectory("a")` lists `["b.txt"]`, while
`readDirectory("")` returns the `null` sentinel (the string `""` names the
single empty segment, not the root). -/
theorem C4_root_listing {α δ : Type} (c : α) :
    ((MiniFS.fresh false : MiniFS α δ).writeFile (.str "a/b.txt") (some c) true).1
        = .ok true ∧
    (((MiniFS.fresh false : MiniFS α δ).writeFile (.str "a/b.txt") (some c) true).2.readDirectory
        rootPath false).1 = .ok (.names ["a"]) ∧
    (((MiniFS.fresh false : MiniFS α δ).writeFile (.str "a/b.txt") (some c) true).2.readDirectory
        (.str "a") false).1 = .ok (.names ["b.txt"]) ∧
    (((MiniFS.fresh false : MiniFS α δ).writeFile (.str "a/b.txt") (some c) true).2.readDirectory
        (.str "") false).1 = .ok .nullv :=
  ⟨rfl, rfl, rfl, rfl⟩

/-- Claim C5 (counterexample): the write/read round trip fails in general.
At the root path `[]`, `writeFile([], 5)` reports success but stores
nothing, and `readFile([])` returns the `null` sentinel, not `5`; at a
path naming an existing File (content 1), `writeFile` returns `false` and
`readFile` still returns the old content `1`, not the written `2`. -/
theorem C5_counterexample :
    ((MiniFS.fresh false : MiniFS Nat Unit).writeFile (.segs []) (some 5) true).1
        = .ok true ∧
    (((MiniFS.fresh false : MiniFS Nat Unit).writeFile (.segs []) (some 5) true).2.readFile
        (.segs []) false).1 = .ok .nullv ∧
    (((MiniFS.fresh false : MiniFS Nat Unit).writeFile (.segs []) (some 5) true).2.readFile
        (.segs []) false).1 ≠ .ok (.content 5) ∧
    (fileAStore.writeFile (.segs ["a"]) (some 2) true).1 = .ok false ∧
    ((fileAStore.writeFile (.segs ["a"]) (some 2) true).2.readFile
        (.segs ["a"]) false).1 = .ok (.content 1) :=
  ⟨rfl, rfl, fun h => ReadFileRes.noConfusion (Except.ok.inj h), rfl, rfl⟩

/-- Claim C5 (amended): for every store, every non-empty path whose read-only
resolution does not yield an existing Directory, and every content value,
if `writeFile(P, C)` returns true then `readFile(P)` immediately after
returns exactly `C`. -/
theorem C5_write_read_roundtrip {α δ : Type} (fs : MiniFS α δ) (P : List String) (x : α)
    (hne : P ≠ [])
    (hdir : resolvesToDir (readEntryE false fs.rootEntry P) = false)
    (hok : (fs.writeFile (.segs P) (some x) true).1 = .ok true) :
    ((fs.writeFile (.segs P) (some x) true).2.readFile (.segs P) false).1
      = .ok (.content x) := by
  have hok' : (writeGo fs.preferErrors true (fun f => { f with content := some x })
      fs.files P).1 = .ok true := hok
  obtain ⟨nmf, hread⟩ :=
    writeGo_roundtrip P hne fs.files fs.preferErrors x hdir hok'
  have hr := hread fs.preferErrors
  simp only [MiniFS.writeFile, MiniFS.readFile, MiniFS.rootEntry, pathAsSegments]
  rw [hr]
  rfl

/-- Claim C5 witness: concrete instance of the amended round trip. -/
theorem C5_write_read_roundtrip_witness :
    (((MiniFS.fresh false : MiniFS Nat Unit).writeFile (.segs ["a", "b"]) (some 7) true).2.readFile
        (.segs ["a", "b"]) false).1 = .ok (.content 7) :=
  C5_write_read_roundtrip (MiniFS.fresh false) ["a", "b"] 7 (by decide) rfl rfl

/-- Claim C1 (counterexample): `remove` does not detach an existing File.
On a store whose root maps `a` to a File, `remove(["a"])` returns `false`
and leaves the entry in place, refuting "returns true regardless of
whether the named entry is a File or a Directory". -/
theorem C1_counterexample :
    fileAStore.remove (.segs ["a"]) = (.ok false, fileAStore) ∧
    memC fileAStore.files "a" = true :=
  ⟨rfl, rfl⟩

/-- Claim C1 (amended): for every store and non-empty path whose non-final
segments resolve through Directories, if the final segment names an
existing Directory then `remove` detaches that entry from its parent's
content mapping and returns true; if it names an existing File, `remove`
fails (`false`, or an `is a file` error in prefer-errors mode) and leaves
the store unchanged. -/
theorem C1_remove_detaches {α δ : Type} (t : MiniFS α δ) (P : List String) (hne : P ≠ []) :
    (∀ nm dc dt, readEntryE false t.rootEntry P = .ok (some (.dir nm dc dt)) →
      t.remove (.segs P) = (.ok true, ⟨detachC t.files P, t.preferErrors⟩)) ∧
    (∀ f, readEntryE false t.rootEntry P = .ok (some (.file f)) →
      t.remove (.segs P) = (jsFail t.preferErrors msgRemoveIsFile, t)) := by
  constructor
  · intro nm dc dt h
    have hr := removeGo_dir P hne t.files nm dc dt t.preferErrors h
    simp only [MiniFS.remove, pathAsSegments, hr]
  · intro f h
    have hr := removeGo_file P hne t.files f t.preferErrors h
    simp only [MiniFS.remove, pathAsSegments, hr]

/-- Claim C1 witness: removing an existing Directory (with a child) detaches
exactly that subtree and returns true. -/
theorem C1_remove_detaches_witness :
    dirWithChildStore.remove (.segs ["d"]) = (.ok true, ⟨[], false⟩) :=
  (C1_remove_detaches dirWithChildStore ["d"] (by decide)).1
    "d" [("x", .file ⟨"x", some 1, none⟩)] none rfl

/-- Claim C2 (code bug, evaluated at the failing input): writing to a path
whose final segment names an existing File does not overwrite in place —
`writeFile` (and `writeFileWithCallback`) return `false` (or throw
`is a file` in prefer-errors mode) and leave the old content untouched,
because the overwrite branch of `_writeFile` sits inside the
`!(pathSegment in dir.content)` guard and is dead code. -/
theorem C2_overwrite_is_dead_code :
    fileAStore.writeFile (.segs ["a"]) (some 2) true = (.ok false, fileAStore) ∧
    fileAStore.writeFileWithCallback (.segs ["a"])
        (fun f => { f with content := some 2 }) true = (.ok false, fileAStore) ∧
    (fileAStoreE.writeFile (.segs ["a"]) (some 2) true).1 = .error msgWriteIsFile :=
  ⟨rfl, rfl, rfl⟩

/-- Claim C3 (code bug, evaluated at the failing input): writing to a path
whose final segment names an existing Directory does not fail — it returns
`true` (in both modes; the `is a directory` error branch is dead code) and
leaves the tree unchanged. -/
theorem C3_write_to_directory_returns_true :
    dirDStore.writeFile (.segs ["d"]) (some 1) true = (.ok true, dirDStore) ∧
    dirDStoreE.writeFile (.segs ["d"]) (some 1) true = (.ok true, dirDStoreE) :=
  ⟨rfl, rfl⟩

/-- Claim C7: on a store where `x` does not exist at the root,
`createDirectory("x/y", {recursive: false})` fails (returns `false`, or
throws in prefer-errors mode) and leaves the tree unchanged — in
particular `x` is not created. -/
theorem C7_createDirectory_nonrecursive_missing {α δ : Type} (t : MiniFS α δ)
    (h : memC t.files "x" = false) :
    t.createDirectory (.str "x/y") false = (jsFail t.preferErrors msgCreateDirMissing, t) := by
  obtain ⟨files, pe⟩ := t
  have hseg : pathAsSegments (.str "x/y") = ["x", "y"] := by decide
  simp only [MiniFS.createDirectory, hseg]
  simp only [memC] at h
  simp [createDirGo, memC, h]

/-- Claim C7 witness: on the fresh (sentinel-mode) store. -/
theorem C7_witness :
    (MiniFS.fresh false : MiniFS Nat Unit).createDirectory (.str "x/y") false
      = (.ok false, MiniFS.fresh false) :=
  C7_createDirectory_nonrecursive_missing (MiniFS.fresh false) rfl

/-- Claim C8: `readDirectory` and `readFile` never mutate the store: for
every store state, path and options value, the tree after the call is the
tree before it (the embedded methods thread the store through untouched,
exactly as the source methods perform no assignment). -/
theorem C8_readers_do_not_mutate {α δ : Type} (t : MiniFS α δ) (p : Path) (re1 re2 : Bool) :
    (t.readDirectory p re1).2 = t ∧ (t.readFile p re2).2 = t :=
  ⟨rfl, rfl⟩

/-- Claim C9: the root of the store is a Directory after every sequence of
public operations (createDirectory, readDirectory, readFile, writeFile,
writeFileWithCallback, remove, walk) applied to any store: no operation
can replace the root, which the store holds as a Directory by
construction. -/
theorem C9_root_always_directory {α δ : Type} (fs : MiniFS α δ) (ops : List (Op α δ)) :
    (MiniFS.rootEntry (runOps fs ops)).isDirectory = true :=
  rfl

/-- Claim C10: called with the empty segment sequence `[]` (the root path),
`writeFile`, `writeFileWithCallback`, `createDirectory` and `remove` all
return `true` and leave the tree completely unchanged — the walk loop body
never runs, so `writeFile([], c)` reports success without storing
anything. -/
theorem C10_empty_path_noop_success {α δ : Type} (t : MiniFS α δ)
    (x : Option α) (cb : File α δ → File α δ) (r1 r2 r3 : Bool) :
    t.writeFile (.segs []) x r1 = (.ok true, t) ∧
    t.writeFileWithCallback (.segs []) cb r2 = (.ok true, t) ∧
    t.createDirectory (.segs []) r3 = (.ok true, t) ∧
    t.remove (.segs []) = (.ok true, t) :=
  ⟨rfl, rfl, rfl, rfl⟩

end Minifs
